import Mathlib

/-!
Verification of the JSON-RPC 2.0 layer of the Melo media hub
(`src/lib/melo_jsonrpc.c`): method registry, request processor,
top-level dispatcher, parameter validator/converter and
response/error builders, shallowly embedded as pure Lean functions.
-/

namespace Melo

/-- JSON values as handled by json-glib: a node is `null`, a value
(boolean / int64 / double / string), an array or an object.  Doubles are
modelled as rationals; only their type tag matters to the code under
verification.  Objects are ordered member lists, as json-glib preserves
insertion order. -/
inductive JValue where
  | jnull
  | jbool (b : Bool)
  | jint (n : Int)
  | jfloat (q : Rat)
  | jstr (s : String)
  | jarr (elems : List JValue)
  | jobj (members : List (String × JValue))

namespace JValue

/-- `JSON_NODE_HOLDS_VALUE`: the node is a scalar value node. -/
def isValue : JValue → Bool
  | jbool _ | jint _ | jfloat _ | jstr _ => true
  | _ => false

/-- `JSON_NODE_TYPE (node) == JSON_NODE_ARRAY`. -/
def isArr : JValue → Bool
  | jarr _ => true
  | _ => false

/-- `JSON_NODE_TYPE (node) == JSON_NODE_OBJECT`. -/
def isObj : JValue → Bool
  | jobj _ => true
  | _ => false

def isBool : JValue → Bool
  | jbool _ => true
  | _ => false

def isInt : JValue → Bool
  | jint _ => true
  | _ => false

def isFloat : JValue → Bool
  | jfloat _ => true
  | _ => false

def isStr : JValue → Bool
  | jstr _ => true
  | _ => false

end JValue

/-- `json_object_get_member`: member lookup in an object's member list. -/
def memberGet (ms : List (String × JValue)) (k : String) : Option JValue :=
  (ms.find? (fun p => p.1 == k)).map (·.2)

/-- `json_object_has_member`. -/
def hasMember (ms : List (String × JValue)) (k : String) : Bool :=
  (memberGet ms k).isSome

/-- `json_object_get_string_member`: returns the string when the member is
present and holds a string value, and NULL (`none`) otherwise. -/
def getStrMember (ms : List (String × JValue)) (k : String) : Option String :=
  match memberGet ms k with
  | some (.jstr s) => some s
  | _ => none

/-- `json_object_get_int_member`, whose underlying `json_node_get_int`
coerces booleans and doubles (cast truncates toward zero) and returns 0
for strings, null, and non-value nodes. -/
def getIntMember (ms : List (String × JValue)) (k : String) : Int :=
  match memberGet ms k with
  | some (.jint n) => n
  | some (.jbool b) => if b then 1 else 0
  | some (.jfloat q) => q.num.tdiv q.den
  | _ => 0

/-- `json_node_get_boolean`'s coercion: booleans as-is, nonzero numbers
truthy, everything else FALSE. -/
def jNodeGetBoolean : JValue → Bool
  | .jbool b => b
  | .jint n => n != 0
  | .jfloat q => q != 0
  | _ => false

/-- `json_object_set_*_member`: replace the value in place when the key
exists, otherwise append the new member. -/
def objSet (ms : List (String × JValue)) (k : String) (v : JValue) :
    List (String × JValue) :=
  if ms.any (fun p => p.1 == k) then
    ms.map (fun p => if p.1 == k then (k, v) else p)
  else
    ms ++ [(k, v)]

/-- Modelled from the spec: the `MeloJSONRPCError` codes are declared in
`melo_jsonrpc.h`, which is not among the sources.  The values are the
JSON-RPC 2.0 standard codes the spec names (Parse error, Invalid
request, Method not found, Invalid params, Internal error), each a
distinct reserved negative integer. -/
def MELO_JSONRPC_ERROR_PARSE_ERROR : Int := -32700

def MELO_JSONRPC_ERROR_INVALID_REQUEST : Int := -32600

def MELO_JSONRPC_ERROR_METHOD_NOT_FOUND : Int := -32601

def MELO_JSONRPC_ERROR_INVALID_PARAMS : Int := -32602

def MELO_JSONRPC_ERROR_INTERNAL_ERROR : Int := -32603

/-- `melo_jsonrpc_build_error_node` (and the shared
`melo_jsonrpc_build_error_nodev`): the bare error object
`\x7b"code": code, "message": message\x7d`. -/
def melo_jsonrpc_build_error_node (code : Int) (message : String) : JValue :=
  .jobj [("code", .jint code), ("message", .jstr message)]

/-- `melo_jsonrpc_build_response_node`: the response envelope.  `error`
wins over `result` when both are supplied.  The id member is rendered
from the string id when `nid < 0` or a string id exists (a NULL string
serializes as a literal `null`), and from the integer id otherwise. -/
def melo_jsonrpc_build_response_node (result error : Option JValue)
    (id : Option String) (nid : Int) : JValue :=
  .jobj (("jsonrpc", JValue.jstr "2.0") ::
    (match error, result with
     | some e, _ => [("error", e)]
     | none, some r => [("result", r)]
     | none, none => []) ++
    [("id",
      if nid < 0 ∨ id.isSome then
        match id with
        | some s => JValue.jstr s
        | none => JValue.jnull
      else JValue.jint nid)])

/-- `melo_jsonrpc_build_error`: a full error response envelope. -/
def melo_jsonrpc_build_error (id : Option String) (nid : Int)
    (code : Int) (message : String) : JValue :=
  melo_jsonrpc_build_response_node none
    (some (melo_jsonrpc_build_error_node code message)) id nid

/-- The callback signature `MeloJSONRPCCallback`
`(method, schema params, params, &result, &error, user_data)`, with the
opaque `user_data` folded into the closure: it returns the pair
(result, error) it would have stored through the out pointers. -/
def MeloJSONRPCCallback :=
  String → Option (List JValue) → Option JValue → Option JValue × Option JValue

/-- `MeloJSONRPCInternalMethod`: schema nodes plus callback. -/
structure InternalMethod where
  params : Option (List JValue)
  result : Option (List (String × JValue))
  callback : MeloJSONRPCCallback

/-- The global `melo_jsonrpc_methods` hash table: `none` models the NULL
(not yet created / torn down) table, `some tbl` an existing table keyed
by the qualified method name. -/
def Registry := Option (List (String × InternalMethod))

/-- `melo_jsonrpc_register_method`: creates the table on first use,
fails without mutation when the qualified name `group.method` is
already present, otherwise inserts the new handler. -/
def melo_jsonrpc_register_method (group method : String)
    (params : Option (List JValue)) (result : Option (List (String × JValue)))
    (callback : MeloJSONRPCCallback) (st : Registry) : Bool × Registry :=
  let complete_method := group ++ "." ++ method
  let tbl := st.getD []
  if (tbl.lookup complete_method).isSome then
    (false, st)
  else
    (true, some (tbl ++ [(complete_method, ⟨params, result, callback⟩)]))

/-- `melo_jsonrpc_unregister_method`: removes the entry keyed
`group.method` if present and tears the table down when it becomes
empty; with a NULL table the glib calls are warn-and-return no-ops. -/
def melo_jsonrpc_unregister_method (group method : String) (st : Registry) :
    Registry :=
  let complete_method := group ++ "." ++ method
  match st with
  | none => none
  | some tbl =>
    let t := tbl.filter (fun p => p.1 != complete_method)
    if t.isEmpty then none else some t

/-- One `MeloJSONRPCMethod` entry of a bulk registration.  The `params`
and `result` fields carry the outcome of `json_parser_load_from_data`
on the schema text: `none` when the text fails to parse as JSON, and
the parsed root node otherwise. -/
structure MeloJSONRPCMethod where
  method : String
  params : Option JValue
  result : Option JValue
  callback : MeloJSONRPCCallback

/-- One iteration of the `melo_jsonrpc_register_methods` loop: a params
text that parses to a non-array root hits `continue` and skips the
entry (without touching the error count), as does a result text that
parses to a non-object root; unparsable texts become NULL schemas; a
failed registration increments the error count. -/
def melo_jsonrpc_register_methods_step (group : String)
    (acc : Registry × Nat) (e : MeloJSONRPCMethod) : Registry × Nat :=
  let pRes : Option (Option (List JValue)) :=
    match e.params with
    | some (.jarr ps) => some (some ps)
    | some _ => none
    | none => some none
  match pRes with
  | none => acc
  | some params =>
    let rRes : Option (Option (List (String × JValue))) :=
      match e.result with
      | some (.jobj ro) => some (some ro)
      | some _ => none
      | none => some none
    match rRes with
    | none => acc
    | some result =>
      match melo_jsonrpc_register_method group e.method params result
          e.callback acc.1 with
      | (true, st') => (st', acc.2)
      | (false, st') => (st', acc.2 + 1)

/-- `melo_jsonrpc_register_methods`: registers every entry in turn and
returns the error count together with the final registry state. -/
def melo_jsonrpc_register_methods (group : String)
    (methods : List MeloJSONRPCMethod) (st : Registry) : Nat × Registry :=
  let acc := methods.foldl (melo_jsonrpc_register_methods_step group) (st, 0)
  (acc.2, acc.1)

/-- `melo_jsonrpc_unregister_methods`: unregisters every entry's name. -/
def melo_jsonrpc_unregister_methods (group : String)
    (methods : List MeloJSONRPCMethod) (st : Registry) : Registry :=
  methods.foldl (fun s e => melo_jsonrpc_unregister_method group e.method s) st

/-- The `invalid:` exit of `melo_jsonrpc_parse_node`: an Invalid Request
envelope built with a NULL string id and `nid = -1`. -/
def invalidRequestResponse : JValue :=
  melo_jsonrpc_build_error none (-1)
    MELO_JSONRPC_ERROR_INVALID_REQUEST "Invalid request"

/-- `melo_jsonrpc_parse_node`: processes one JSON-RPC call.  Checks the
envelope (object shape, version "2.0", string method, params shape),
looks the method up, and either returns nothing for a notification
(the callback, when registered, runs but its outputs are discarded),
a Method Not Found envelope when no callback answers, or the response
built from the callback's result/error. -/
def melo_jsonrpc_parse_node (st : Registry) (node : JValue) : Option JValue :=
  match node with
  | .jobj obj =>
    if ¬ hasMember obj "jsonrpc" then some invalidRequestResponse
    else
      match getStrMember obj "jsonrpc" with
      | none => some invalidRequestResponse
      | some version =>
        if version ≠ "2.0" then some invalidRequestResponse
        else if ¬ hasMember obj "method" then some invalidRequestResponse
        else
          match getStrMember obj "method" with
          | none => some invalidRequestResponse
          | some method =>
            let params := memberGet obj "params"
            let paramsShapeOk : Bool :=
              match params with
              | none => true
              | some p => p.isArr || p.isObj
            if ¬ paramsShapeOk then
              some invalidRequestResponse
            else
              let entry : Option InternalMethod :=
                match st with
                | none => none
                | some tbl => tbl.lookup method
              if ¬ hasMember obj "id" then
                none
              else
                let nid := getIntMember obj "id"
                let id := getStrMember obj "id"
                match entry with
                | none =>
                  some (melo_jsonrpc_build_error id nid
                    MELO_JSONRPC_ERROR_METHOD_NOT_FOUND "Method not found")
                | some m =>
                  match m.callback method m.params params with
                  | (none, none) =>
                    some (melo_jsonrpc_build_error id nid
                      MELO_JSONRPC_ERROR_METHOD_NOT_FOUND "Method not found")
                  | (result, error) =>
                    some (melo_jsonrpc_build_response_node result error id nid)
  | _ => some invalidRequestResponse

/-- `melo_jsonrpc_parse_request`: the top-level dispatcher, over the
outcome of `json_parser_load_from_data` on the wire text (`none` when
the text fails to parse as JSON).  The C function serializes the final
node to a string; the model stops at the node (`none` = NULL output). -/
def melo_jsonrpc_parse_request (st : Registry) (req : Option JValue) :
    Option JValue :=
  match req with
  | none =>
    some (melo_jsonrpc_build_error none (-1)
      MELO_JSONRPC_ERROR_PARSE_ERROR "Parse error")
  | some r =>
    match r with
    | .jobj _ => melo_jsonrpc_parse_node st r
    | .jarr elems =>
      if elems.isEmpty then some invalidRequestResponse
      else
        let res := elems.filterMap (melo_jsonrpc_parse_node st)
        if res.isEmpty then none else some (.jarr res)
    | _ => some invalidRequestResponse

/-- `melo_jsonrpc_add_node`: type-checks one present wire value against
one schema entry (only the first letter of the declared type string is
examined; value types are exact — no int/double coercion) and appends
it to the object (`obj`) or array (`arr`) being materialized.  `none`
models the C FALSE; `some` carries the updated accumulators. -/
def melo_jsonrpc_add_node (node : JValue) (schema : List (String × JValue))
    (obj : Option (List (String × JValue))) (arr : Option (List JValue)) :
    Option (Option (List (String × JValue)) × Option (List JValue)) :=
  match getStrMember schema "name", getStrMember schema "type" with
  | some s_name, some s_type =>
    let add (v : JValue) :
        Option (List (String × JValue)) × Option (List JValue) :=
      match obj with
      | some o => (some (objSet o s_name v), arr)
      | none =>
        match arr with
        | some a => (none, some (a ++ [v]))
        | none => (none, none)
    match s_type.data with
    | [] => none
    | c :: _ =>
      if c = 'b' then
        match node with
        | .jbool b => some (add (.jbool b))
        | _ => none
      else if c = 'i' then
        match node with
        | .jint n => some (add (.jint n))
        | _ => none
      else if c = 'd' then
        match node with
        | .jfloat q => some (add (.jfloat q))
        | _ => none
      else if c = 's' then
        match node with
        | .jstr s => some (add (.jstr s))
        | _ => none
      else if c = 'o' then
        match node with
        | .jobj ms => some (add (.jobj ms))
        | _ => none
      else if c = 'a' then
        match node with
        | .jarr xs => some (add (.jarr xs))
        | _ => none
      else none
  | _, _ => none

/-- The keyed-mapping loop of `melo_jsonrpc_get_json_node`: walks the
schema entries in order against the params object `o`.  A missing
member with `required` absent or truthy fails; a missing optional
member is skipped in object mode and stops the walk (success) in array
mode — and in check mode (both accumulators NULL) the C code falls
through and type-checks the schema's own `required` node in place of
the parameter. -/
def walkObject (o : List (String × JValue)) (entries : List JValue)
    (obj : Option (List (String × JValue))) (arr : Option (List JValue)) :
    Option (Option (List (String × JValue)) × Option (List JValue)) :=
  match entries with
  | [] => some (obj, arr)
  | e :: rest =>
    match e with
    | .jobj schema =>
      match getStrMember schema "name" with
      | none => none
      | some name =>
        match memberGet o name with
        | some node =>
          match melo_jsonrpc_add_node node schema obj arr with
          | none => none
          | some (obj', arr') => walkObject o rest obj' arr'
        | none =>
          match memberGet schema "required" with
          | none => none
          | some rq =>
            if jNodeGetBoolean rq then none
            else if obj.isSome then walkObject o rest obj arr
            else if arr.isSome then some (obj, arr)
            else
              match melo_jsonrpc_add_node rq schema obj arr with
              | none => none
              | some (obj', arr') => walkObject o rest obj' arr'
    | _ => none

/-- The positional loop of `melo_jsonrpc_get_json_node`: walks schema
entries against sequence positions.  Running out of positional values
fails on a required entry and stops the walk with success (in every
mode) on an optional one. -/
def walkArray (a : List JValue) (entries : List JValue) (pos : Nat)
    (obj : Option (List (String × JValue))) (arr : Option (List JValue)) :
    Option (Option (List (String × JValue)) × Option (List JValue)) :=
  match entries with
  | [] => some (obj, arr)
  | e :: rest =>
    match e with
    | .jobj schema =>
      if h : pos < a.length then
        match melo_jsonrpc_add_node (a.get ⟨pos, h⟩) schema obj arr with
        | none => none
        | some (obj', arr') => walkArray a rest (pos + 1) obj' arr'
      else
        match memberGet schema "required" with
        | none => none
        | some rq => if jNodeGetBoolean rq then none else some (obj, arr)
    | _ => none

/-- Set-if-empty semantics of the caller's error slot:
`if (error && *error == NULL) *error = e`. -/
def setErr (err : Option JValue) (e : JValue) : Option JValue :=
  match err with
  | none => some e
  | some _ => err

/-- `melo_jsonrpc_get_json_node`: the shared core of check / to-object /
to-array.  A NULL schema fails with no error reported; absent params
fail with Invalid Request; a failed walk reports Invalid Params; params
that are neither an object nor an array succeed vacuously.  Returns
(success, obj accumulator, arr accumulator, error slot). -/
def melo_jsonrpc_get_json_node (schema_params : Option (List JValue))
    (params : Option JValue) (obj : Option (List (String × JValue)))
    (arr : Option (List JValue)) (err : Option JValue) :
    Bool × Option (List (String × JValue)) × Option (List JValue) ×
      Option JValue :=
  match schema_params with
  | none => (false, obj, arr, err)
  | some entries =>
    match params with
    | none =>
      (false, obj, arr,
        setErr err (melo_jsonrpc_build_error_node
          MELO_JSONRPC_ERROR_INVALID_REQUEST "Invalid request"))
    | some p =>
      match p with
      | .jobj o =>
        match walkObject o entries obj arr with
        | some (obj', arr') => (true, obj', arr', err)
        | none =>
          (false, obj, arr,
            setErr err (melo_jsonrpc_build_error_node
              MELO_JSONRPC_ERROR_INVALID_PARAMS "Invalid params"))
      | .jarr a =>
        match walkArray a entries 0 obj arr with
        | some (obj', arr') => (true, obj', arr', err)
        | none =>
          (false, obj, arr,
            setErr err (melo_jsonrpc_build_error_node
              MELO_JSONRPC_ERROR_INVALID_PARAMS "Invalid params"))
      | _ => (true, obj, arr, err)

/-- `melo_jsonrpc_check_params`: the walk with no accumulators; returns
the success flag and the error slot. -/
def melo_jsonrpc_check_params (schema_params : Option (List JValue))
    (params : Option JValue) (err : Option JValue) : Bool × Option JValue :=
  let r := melo_jsonrpc_get_json_node schema_params params none none err
  (r.1, r.2.2.2)

/-- `melo_jsonrpc_get_object`: materializes a keyed mapping (NULL on
failure); returns it with the error slot. -/
def melo_jsonrpc_get_object (schema_params : Option (List JValue))
    (params : Option JValue) (err : Option JValue) :
    Option (List (String × JValue)) × Option JValue :=
  let r := melo_jsonrpc_get_json_node schema_params params (some []) none err
  (if r.1 then r.2.1 else none, r.2.2.2)

/-- `melo_jsonrpc_get_array`: materializes an ordered sequence (NULL on
failure); returns it with the error slot. -/
def melo_jsonrpc_get_array (schema_params : Option (List JValue))
    (params : Option JValue) (err : Option JValue) :
    Option (List JValue) × Option JValue :=
  let r := melo_jsonrpc_get_json_node schema_params params none (some []) err
  (if r.1 then r.2.2.1 else none, r.2.2.2)

/-- Specification-side definition, following the claim's words: a wire
value matches a declared schema type exactly when its JSON type is the
one declared — boolean, integer, double, string, object or array, with
integer and double never coerced into each other. -/
def specTypeMatches (t : String) (v : JValue) : Bool :=
  if t = "boolean" then v.isBool
  else if t = "integer" then v.isInt
  else if t = "double" then v.isFloat
  else if t = "string" then v.isStr
  else if t = "object" then v.isObj
  else if t = "array" then v.isArr
  else false

theorem getStrMember_eq_some (ms : List (String × JValue)) (k s : String) :
    getStrMember ms k = some s ↔ memberGet ms k = some (.jstr s) := by
  unfold getStrMember
  cases h : memberGet ms k with
  | none => simp
  | some v => cases v <;> simp

/-- Well-formedness of the reachable registry states: an existing hash
table has pairwise-distinct keys and is nonempty (the table is torn
down as soon as it empties). -/
def RegistryWF (st : Registry) : Prop :=
  match st with
  | none => True
  | some tbl => (tbl.map Prod.fst).Nodup ∧ tbl ≠ []

theorem lookup_eq_none_iff (k : String) (l : List (String × InternalMethod)) :
    l.lookup k = none ↔ ∀ p ∈ l, p.1 ≠ k := by
  induction l with
  | nil => simp [List.lookup]
  | cons hd tl ih =>
    obtain ⟨a, b⟩ := hd
    by_cases hak : k = a
    · subst hak
      simp [List.lookup]
    · have hne : a ≠ k := fun h => hak h.symm
      simp [List.lookup, beq_false_of_ne hak, ih, hne]

theorem lookup_filter_ne (name k : String) (l : List (String × InternalMethod))
    (hk : k ≠ name) :
    (l.filter (fun p => p.1 != name)).lookup k = l.lookup k := by
  induction l with
  | nil => simp
  | cons hd tl ih =>
    obtain ⟨a, b⟩ := hd
    by_cases han : a = name
    · subst han
      have : (a != a) = false := by simp
      simp [List.filter, this, ih, List.lookup, beq_false_of_ne hk]
    · have : (a != name) = true := by simpa using han
      by_cases hka : k = a
      · subst hka
        simp [List.filter, this, List.lookup]
      · simp [List.filter, this, List.lookup, beq_false_of_ne hka, ih]

/-- Callback used by the C1 concrete scenario: always answers with the
string result "ok". -/
def c1cb : MeloJSONRPCCallback := fun _ _ _ => (some (.jstr "ok"), none)

/-- Registry holding the single method `a.b` backed by `c1cb`. -/
def c1st : Registry :=
  (melo_jsonrpc_register_method "a" "b" none none c1cb none).2

/-- C1 counterexample: the valid request
`\x7b"jsonrpc":"2.0","method":"a.b","id":-5\x7d` carries the integer id
-5, but the produced response renders its id as a literal `null`
(`nid < 0` routes the builder to the NULL string id), so a negative
integer id is not echoed in type and value. -/
theorem c1_negative_id_counterexample :
    melo_jsonrpc_parse_node c1st
      (.jobj [("jsonrpc", .jstr "2.0"), ("method", .jstr "a.b"),
        ("id", .jint (-5))])
    = some (.jobj [("jsonrpc", .jstr "2.0"), ("result", .jstr "ok"),
        ("id", .jnull)])
    ∧ JValue.jnull ≠ JValue.jint (-5) :=
  ⟨rfl, fun h => JValue.noConfusion h⟩

/-- Observation of a dispatch outcome: the `id` member of the response
object, when a response object was produced. -/
def responseIdMember : Option JValue → Option JValue
  | some (.jobj ms) => memberGet ms "id"
  | _ => none

theorem responseIdMember_build (result error : Option JValue)
    (id : Option String) (nid : Int) :
    responseIdMember (some (melo_jsonrpc_build_response_node result error id
      nid))
    = some (if nid < 0 ∨ id.isSome then
        (match id with
          | some s => JValue.jstr s
          | none => JValue.jnull)
      else JValue.jint nid) := by
  cases error <;> cases result <;>
    simp [responseIdMember, melo_jsonrpc_build_response_node, memberGet,
      List.find?]

/-- C1 (amended): for every valid single request carrying an `id` that
is a string or a non-negative integer, whatever the registry and the
callback do (method found or not, result or error or neither), the
response's `id` member is identical in JSON type and value to the
request's `id` — string stays string, non-negative integer stays
integer — so such requests stay distinguishable by their echoed
responses.  A negative integer id, however, is rendered as null. -/
theorem c1_id_roundtrip_amended (st : Registry)
    (o : List (String × JValue)) (mth : String) (idv : JValue)
    (hv : getStrMember o "jsonrpc" = some "2.0")
    (hm : getStrMember o "method" = some mth)
    (hp : ∀ p, memberGet o "params" = some p → (p.isArr || p.isObj) = true)
    (hid : memberGet o "id" = some idv)
    (hkind : (∃ s, idv = JValue.jstr s)
      ∨ (∃ n : Int, 0 ≤ n ∧ idv = JValue.jint n)) :
    responseIdMember (melo_jsonrpc_parse_node st (.jobj o)) = some idv := by
  have hv' := (getStrMember_eq_some o "jsonrpc" "2.0").mp hv
  have hm' := (getStrMember_eq_some o "method" mth).mp hm
  rcases hkind with ⟨s, rfl⟩ | ⟨n, hn, rfl⟩
  · have hgs : getStrMember o "id" = some s := by simp [getStrMember, hid]
    have hgi : getIntMember o "id" = 0 := by simp [getIntMember, hid]
    cases hpp : memberGet o "params" with
    | none =>
      cases st with
      | none =>
        simp [melo_jsonrpc_parse_node, hasMember, hv', hv, hm, hm', hpp,
          hid, hgs, hgi, melo_jsonrpc_build_error, responseIdMember_build]
      | some tbl =>
        cases hl : tbl.lookup mth with
        | none =>
          simp [melo_jsonrpc_parse_node, hasMember, hv', hv, hm, hm', hpp,
            hid, hgs, hgi, hl, melo_jsonrpc_build_error, responseIdMember_build]
        | some m =>
          rcases hcb : m.callback mth m.params none with ⟨res, err⟩
          cases res <;> cases err <;>
            simp [melo_jsonrpc_parse_node, hasMember, hv', hv, hm, hm', hpp,
              hid, hgs, hgi, hl, hcb, melo_jsonrpc_build_error,
              responseIdMember_build]
    | some p =>
      cases st with
      | none =>
        simp [melo_jsonrpc_parse_node, hasMember, hv', hv, hm, hm', hpp,
          hp p hpp, hid, hgs, hgi, melo_jsonrpc_build_error,
          responseIdMember_build]
      | some tbl =>
        cases hl : tbl.lookup mth with
        | none =>
          simp [melo_jsonrpc_parse_node, hasMember, hv', hv, hm, hm', hpp,
            hp p hpp, hid, hgs, hgi, hl, melo_jsonrpc_build_error,
            responseIdMember_build]
        | some m =>
          rcases hcb : m.callback mth m.params (some p) with ⟨res, err⟩
          cases res <;> cases err <;>
            simp [melo_jsonrpc_parse_node, hasMember, hv', hv, hm, hm', hpp,
              hp p hpp, hid, hgs, hgi, hl, hcb, melo_jsonrpc_build_error,
              responseIdMember_build]
  · have hgs : getStrMember o "id" = none := by simp [getStrMember, hid]
    have hgi : getIntMember o "id" = n := by simp [getIntMember, hid]
    cases hpp : memberGet o "params" with
    | none =>
      cases st with
      | none =>
        simp [melo_jsonrpc_parse_node, hasMember, hv', hv, hm, hm', hpp,
          hid, hgs, hgi, melo_jsonrpc_build_error, responseIdMember_build,
          not_lt.mpr hn]
      | some tbl =>
        cases hl : tbl.lookup mth with
        | none =>
          simp [melo_jsonrpc_parse_node, hasMember, hv', hv, hm, hm', hpp,
            hid, hgs, hgi, hl, melo_jsonrpc_build_error, responseIdMember_build,
            not_lt.mpr hn]
        | some m =>
          rcases hcb : m.callback mth m.params none with ⟨res, err⟩
          cases res <;> cases err <;>
            simp [melo_jsonrpc_parse_node, hasMember, hv', hv, hm, hm', hpp,
              hid, hgs, hgi, hl, hcb, melo_jsonrpc_build_error,
              responseIdMember_build, not_lt.mpr hn]
    | some p =>
      cases st with
      | none =>
        simp [melo_jsonrpc_parse_node, hasMember, hv', hv, hm, hm', hpp,
          hp p hpp, hid, hgs, hgi, melo_jsonrpc_build_error,
          responseIdMember_build, not_lt.mpr hn]
      | some tbl =>
        cases hl : tbl.lookup mth with
        | none =>
          simp [melo_jsonrpc_parse_node, hasMember, hv', hv, hm, hm', hpp,
            hp p hpp, hid, hgs, hgi, hl, melo_jsonrpc_build_error,
            responseIdMember_build, not_lt.mpr hn]
        | some m =>
          rcases hcb : m.callback mth m.params (some p) with ⟨res, err⟩
          cases res <;> cases err <;>
            simp [melo_jsonrpc_parse_node, hasMember, hv', hv, hm, hm', hpp,
              hp p hpp, hid, hgs, hgi, hl, hcb, melo_jsonrpc_build_error,
              responseIdMember_build, not_lt.mpr hn]

/-- Witness for C1's amended theorem: the request
`\x7b"jsonrpc":"2.0","method":"x","id":3\x7d` against the empty registry
gets its Method Not Found response with the integer id 3 echoed. -/
theorem c1_id_roundtrip_amended_witness :
    responseIdMember (melo_jsonrpc_parse_node none
      (.jobj [("jsonrpc", .jstr "2.0"), ("method", .jstr "x"),
        ("id", .jint 3)]))
    = some (.jint 3) :=
  c1_id_roundtrip_amended none
    [("jsonrpc", .jstr "2.0"), ("method", .jstr "x"), ("id", .jint 3)]
    "x" (.jint 3) rfl rfl (fun _ h => nomatch h) rfl
    (Or.inr ⟨3, by decide, rfl⟩)

/-- C2: a valid request object lacking an `id` member is a notification
and produces no response at all, whatever the registry holds — whether
the method is unknown or the registered callback answers a result or an
error, every output is discarded. -/
theorem c2_notification_no_output (st : Registry)
    (o : List (String × JValue)) (mth : String)
    (hv : getStrMember o "jsonrpc" = some "2.0")
    (hm : getStrMember o "method" = some mth)
    (hp : ∀ p, memberGet o "params" = some p → (p.isArr || p.isObj) = true)
    (hid : memberGet o "id" = none) :
    melo_jsonrpc_parse_node st (.jobj o) = none := by
  have hv' := (getStrMember_eq_some o "jsonrpc" "2.0").mp hv
  have hm' := (getStrMember_eq_some o "method" mth).mp hm
  cases hpp : memberGet o "params" with
  | none =>
    simp [melo_jsonrpc_parse_node, hasMember, hv', hv, hm, hm', hpp, hid]
  | some p =>
    simp [melo_jsonrpc_parse_node, hasMember, hv', hv, hm, hm', hpp, hid,
      hp p hpp]

/-- Callback used by the C2 witness: it always reports an error, which
the notification path must discard. -/
def c2cb : MeloJSONRPCCallback :=
  fun _ _ _ => (none, some (melo_jsonrpc_build_error_node 1 "boom"))

/-- Witness for C2: a concrete notification for the registered,
error-reporting method `a.b` yields no output. -/
theorem c2_notification_no_output_witness :
    melo_jsonrpc_parse_node
      (melo_jsonrpc_register_method "a" "b" none none c2cb none).2
      (.jobj [("jsonrpc", .jstr "2.0"), ("method", .jstr "a.b")]) = none :=
  c2_notification_no_output _ _ "a.b" rfl rfl (fun _ h => nomatch h) rfl

/-- C5: for each of the six declared schema types, a present wire value
passes `melo_jsonrpc_add_node` exactly when its JSON type matches the
declared type (boolean, integer, double, string, object, array —
integer and double never coerced into each other), and a mismatching
present value makes the walk fail with an Invalid Params error. -/
theorem c5_type_exactness (t : String)
    (ht : t ∈ ["boolean", "integer", "double", "string", "object", "array"])
    (nm : String) (v : JValue) (obj : Option (List (String × JValue)))
    (arr : Option (List JValue)) :
    ((melo_jsonrpc_add_node v [("name", .jstr nm), ("type", .jstr t)] obj
        arr).isSome = specTypeMatches t v)
    ∧ (specTypeMatches t v = false →
      melo_jsonrpc_check_params
        (some [.jobj [("name", .jstr nm), ("type", .jstr t)]])
        (some (.jobj [(nm, v)])) none
      = (false, some (melo_jsonrpc_build_error_node
          MELO_JSONRPC_ERROR_INVALID_PARAMS "Invalid params"))) := by
  simp only [List.mem_cons, List.not_mem_nil, or_false] at ht
  have h1 : ∀ (obj' : Option (List (String × JValue)))
      (arr' : Option (List JValue)),
      (melo_jsonrpc_add_node v [("name", .jstr nm), ("type", .jstr t)] obj'
        arr').isSome = specTypeMatches t v := by
    intro obj' arr'
    rcases ht with rfl | rfl | rfl | rfl | rfl | rfl <;> cases v <;> rfl
  refine ⟨h1 obj arr, fun hmm => ?_⟩
  have hadd : melo_jsonrpc_add_node v [("name", .jstr nm), ("type", .jstr t)]
      none none = none := by
    have h2 := h1 none none
    rw [hmm] at h2
    exact Option.not_isSome_iff_eq_none.mp (by simp [h2])
  have hnm : getStrMember [("name", JValue.jstr nm), ("type", JValue.jstr t)]
      "name" = some nm := rfl
  have hmem : memberGet [(nm, v)] nm = some v := by
    simp [memberGet, List.find?]
  simp [melo_jsonrpc_check_params, melo_jsonrpc_get_json_node, walkObject,
    hnm, hmem, hadd, setErr]

/-- Witness for C5: a string supplied where the schema declares integer
yields Invalid Params. -/
theorem c5_type_exactness_witness :
    melo_jsonrpc_check_params
      (some [.jobj [("name", .jstr "n"), ("type", .jstr "integer")]])
      (some (.jobj [("n", .jstr "bad")])) none
    = (false, some (melo_jsonrpc_build_error_node
        MELO_JSONRPC_ERROR_INVALID_PARAMS "Invalid params")) :=
  (c5_type_exactness "integer" (by simp) "n" (.jstr "bad") none none).2 rfl

/-- C6 shows a code bug, checked here by evaluation: with the schema
`[\x7b"name":"s","type":"string","required":false\x7d]` and the keyed
wire value `\x7b\x7d`, converting to an object skips the absent optional
entry and succeeds, converting to an array stops and succeeds, but the
plain check operation fails with Invalid Params — the C check path falls
through and type-checks the schema's own `required` node, instead of
accepting the absent optional parameter as the other two operations
do. -/
theorem c6_check_rejects_missing_optional_eval :
    melo_jsonrpc_check_params
      (some [.jobj [("name", .jstr "s"), ("type", .jstr "string"),
        ("required", .jbool false)]])
      (some (.jobj [])) none
    = (false, some (melo_jsonrpc_build_error_node
        MELO_JSONRPC_ERROR_INVALID_PARAMS "Invalid params"))
    ∧ melo_jsonrpc_get_object
      (some [.jobj [("name", .jstr "s"), ("type", .jstr "string"),
        ("required", .jbool false)]])
      (some (.jobj [])) none = (some [], none)
    ∧ melo_jsonrpc_get_array
      (some [.jobj [("name", .jstr "s"), ("type", .jstr "string"),
        ("required", .jbool false)]])
      (some (.jobj [])) none = (some [], none) :=
  ⟨rfl, rfl, rfl⟩

/-- C7 counterexample: the schema
`[\x7b"name":"s","type":"string","required":false\x7d]` has zero
required entries, yet with the wire value absent entirely the check
fails and reports Invalid Request, where the claim demands success. -/
theorem c7_zero_required_absent_counterexample :
    melo_jsonrpc_check_params
      (some [.jobj [("name", .jstr "s"), ("type", .jstr "string"),
        ("required", .jbool false)]])
      none none
    = (false, some (melo_jsonrpc_build_error_node
        MELO_JSONRPC_ERROR_INVALID_REQUEST "Invalid request")) :=
  rfl

/-- C7 (amended): for every schema, when the wire parameter value is
absent entirely, all three validator operations fail and report Invalid
Request (not Invalid Params) — with no exception for schemas having
zero required entries. -/
theorem c7_absent_params_always_invalid_request (entries : List JValue) :
    melo_jsonrpc_check_params (some entries) none none
      = (false, some (melo_jsonrpc_build_error_node
          MELO_JSONRPC_ERROR_INVALID_REQUEST "Invalid request"))
    ∧ melo_jsonrpc_get_object (some entries) none none
      = (none, some (melo_jsonrpc_build_error_node
          MELO_JSONRPC_ERROR_INVALID_REQUEST "Invalid request"))
    ∧ melo_jsonrpc_get_array (some entries) none none
      = (none, some (melo_jsonrpc_build_error_node
          MELO_JSONRPC_ERROR_INVALID_REQUEST "Invalid request")) :=
  ⟨rfl, rfl, rfl⟩

/-- Callback used by the C8 failing input; never consulted, since the
entry is skipped before registration. -/
def c8cb : MeloJSONRPCCallback := fun _ _ _ => (none, none)

/-- C8 shows a code bug, checked here by evaluation: a bulk registration
whose single entry has a params schema text parsing to a JSON object
(not the expected array) hits `continue`, so the entry is skipped
outright — the method is never registered (the registry stays NULL) —
yet the returned failure count is 0, although the function's own
documentation promises the number of methods not registered. -/
theorem c8_wrong_shape_schema_skips_registration :
    melo_jsonrpc_register_methods "g"
      [⟨"m", some (.jobj []), none, c8cb⟩] none = (0, none) :=
  rfl

/-- C10: a present wire value that is neither an object nor an array
makes the core walk succeed vacuously against any schema: check returns
true, to-object and to-array materialize an empty object and an empty
array, no error is reported and no schema entry is examined. -/
theorem c10_scalar_params_vacuous_success (entries : List JValue)
    (v : JValue) (ha : v.isArr = false) (ho : v.isObj = false) :
    melo_jsonrpc_check_params (some entries) (some v) none = (true, none)
    ∧ melo_jsonrpc_get_object (some entries) (some v) none = (some [], none)
    ∧ melo_jsonrpc_get_array (some entries) (some v) none = (some [], none) := by
  cases v <;> simp_all [JValue.isArr, JValue.isObj] <;>
    exact ⟨rfl, rfl, rfl⟩

/-- C3: batch dispatch — an empty batch yields a single Invalid Request
envelope; a non-empty batch whose elements are all notifications yields
no output at all; otherwise the output is exactly the array of the
non-empty per-element responses, in input order, with notification
elements omitted (`List.filterMap` of the per-element processor). -/
theorem c3_batch_dispatch (st : Registry) (elems : List JValue) :
    (elems = [] →
      melo_jsonrpc_parse_request st (some (.jarr elems))
        = some invalidRequestResponse)
    ∧ (elems ≠ [] → (∀ e ∈ elems, melo_jsonrpc_parse_node st e = none) →
      melo_jsonrpc_parse_request st (some (.jarr elems)) = none)
    ∧ (elems ≠ [] →
      ∀ rs, melo_jsonrpc_parse_request st (some (.jarr elems)) = some rs →
        rs = .jarr (elems.filterMap (melo_jsonrpc_parse_node st)))
    ∧ (elems ≠ [] → elems.filterMap (melo_jsonrpc_parse_node st) ≠ [] →
      melo_jsonrpc_parse_request st (some (.jarr elems))
        = some (.jarr (elems.filterMap (melo_jsonrpc_parse_node st)))) := by
  refine ⟨?_, ?_, ?_, ?_⟩
  · rintro rfl
    rfl
  · intro hne hall
    have hfm : elems.filterMap (melo_jsonrpc_parse_node st) = [] :=
      List.filterMap_eq_nil_iff.mpr hall
    simp [melo_jsonrpc_parse_request, List.isEmpty_iff, hne, hfm]
  · intro hne rs h
    by_cases hfm : elems.filterMap (melo_jsonrpc_parse_node st) = []
    · simp [melo_jsonrpc_parse_request, List.isEmpty_iff, hne, hfm] at h
    · simp [melo_jsonrpc_parse_request, List.isEmpty_iff, hne, hfm] at h
      exact h.symm
  · intro hne hfm
    simp [melo_jsonrpc_parse_request, List.isEmpty_iff, hne, hfm]

/-- Witness for C3: a one-element batch whose element is malformed
produces the one-element array of its Invalid Request envelope. -/
theorem c3_batch_dispatch_witness :
    melo_jsonrpc_parse_request none (some (.jarr [.jobj []]))
      = some (.jarr [invalidRequestResponse]) := by
  have h := (c3_batch_dispatch none [.jobj []]).2.2.2
    (List.cons_ne_nil _ _) (fun hh => List.noConfusion hh)
  simpa using h

/-- C4: registering a qualified name that is already present returns
false and leaves the registry unchanged (so the original registration
remains callable), and both register and unregister preserve the
registry invariant that qualified names are pairwise distinct. -/
theorem c4_registry_unique_names :
    (∀ (st : Registry) (group method : String) (p : Option (List JValue))
      (r : Option (List (String × JValue))) (cb : MeloJSONRPCCallback),
      ((st.getD []).lookup (group ++ "." ++ method)).isSome = true →
      melo_jsonrpc_register_method group method p r cb st = (false, st))
    ∧ (∀ (st : Registry) (group method : String) (p : Option (List JValue))
      (r : Option (List (String × JValue))) (cb : MeloJSONRPCCallback),
      RegistryWF st →
      RegistryWF (melo_jsonrpc_register_method group method p r cb st).2)
    ∧ (∀ (st : Registry) (group method : String), RegistryWF st →
      RegistryWF (melo_jsonrpc_unregister_method group method st)) := by
  refine ⟨?_, ?_, ?_⟩
  · intro st group method p r cb h
    simp [melo_jsonrpc_register_method, h]
  · intro st group method p r cb hWF
    by_cases h : ((st.getD []).lookup (group ++ "." ++ method)).isSome = true
    · simpa [melo_jsonrpc_register_method, h] using hWF
    · have hnone : (st.getD []).lookup (group ++ "." ++ method) = none := by
        cases hl : (st.getD []).lookup (group ++ "." ++ method) with
        | none => rfl
        | some m => simp [hl] at h
      have hnotin : group ++ "." ++ method ∉ (st.getD []).map Prod.fst := by
        intro hmem
        obtain ⟨q, hq, hq1⟩ := List.mem_map.mp hmem
        exact ((lookup_eq_none_iff _ _).mp hnone q hq) hq1
      cases st with
      | none =>
        simp [melo_jsonrpc_register_method, RegistryWF, List.lookup]
      | some tbl =>
        obtain ⟨hnd, -⟩ := hWF
        simp only [Option.getD] at hnone hnotin
        simp [melo_jsonrpc_register_method, hnone, RegistryWF,
          List.nodup_append, hnd, hnotin]
  · intro st group method hWF
    cases st with
    | none => trivial
    | some tbl =>
      obtain ⟨hnd, -⟩ := hWF
      by_cases he :
          (tbl.filter (fun p => p.1 != group ++ "." ++ method)).isEmpty = true
      · simp [melo_jsonrpc_unregister_method, he, RegistryWF]
      · have hsub :
            ((tbl.filter (fun p => p.1 != group ++ "." ++ method)).map
              Prod.fst).Sublist (tbl.map Prod.fst) :=
          (List.filter_sublist tbl).map Prod.fst
        have hne :
            tbl.filter (fun p => p.1 != group ++ "." ++ method) ≠ [] := by
          intro hh
          simp [hh] at he
        simp only [melo_jsonrpc_unregister_method, he, if_false]
        exact ⟨hnd.sublist hsub, hne⟩

/-- Callback for the C4 witness scenario. -/
def c4cb : MeloJSONRPCCallback := fun _ _ _ => (some (.jstr "ok"), none)

/-- Witness for C4 at concrete inputs: re-registering the existing name
`a.b` fails and keeps the one-entry registry, which satisfies the
uniqueness invariant. -/
theorem c4_registry_unique_names_witness :
    melo_jsonrpc_register_method "a" "b" none none c4cb
      (some [("a.b", ⟨none, none, c4cb⟩)])
      = (false, some [("a.b", ⟨none, none, c4cb⟩)])
    ∧ RegistryWF
      (melo_jsonrpc_register_method "a" "b" none none c4cb none).2 :=
  ⟨c4_registry_unique_names.1 (some [("a.b", ⟨none, none, c4cb⟩)])
      "a" "b" none none c4cb rfl,
    c4_registry_unique_names.2.1 none "a" "b" none none c4cb trivial⟩

/-- C9: unregistering a registered name removes exactly that entry
(every other name still resolves as before); a subsequent identified
request for the removed name yields a Method Not Found envelope echoing
the request id; and unregistering a name that is not present — also on
the empty, never-populated or torn-down registry — leaves the registry
state unchanged. -/
theorem c9_unregister_exact_removal (group method : String) (st : Registry)
    (hWF : RegistryWF st) :
    ((melo_jsonrpc_unregister_method group method st).getD []).lookup
      (group ++ "." ++ method) = none
    ∧ (∀ k, k ≠ group ++ "." ++ method →
      ((melo_jsonrpc_unregister_method group method st).getD []).lookup k
        = (st.getD []).lookup k)
    ∧ (∀ n : Int, 0 ≤ n →
      melo_jsonrpc_parse_node (melo_jsonrpc_unregister_method group method st)
        (.jobj [("jsonrpc", .jstr "2.0"),
          ("method", .jstr (group ++ "." ++ method)), ("id", .jint n)])
      = some (.jobj [("jsonrpc", .jstr "2.0"),
          ("error", .jobj [("code",
              .jint MELO_JSONRPC_ERROR_METHOD_NOT_FOUND),
            ("message", .jstr "Method not found")]),
          ("id", .jint n)]))
    ∧ ((st.getD []).lookup (group ++ "." ++ method) = none →
      melo_jsonrpc_unregister_method group method st = st) := by
  have hrm : ((melo_jsonrpc_unregister_method group method st).getD []).lookup
      (group ++ "." ++ method) = none := by
    cases st with
    | none => simp [melo_jsonrpc_unregister_method, List.lookup]
    | some tbl =>
      by_cases he :
          (tbl.filter (fun p => p.1 != group ++ "." ++ method)).isEmpty = true
      · simp [melo_jsonrpc_unregister_method, he, List.lookup]
      · simp only [melo_jsonrpc_unregister_method, he, if_false,
          Option.getD_some]
        refine (lookup_eq_none_iff _ _).mpr ?_
        intro p hp
        have := (List.mem_filter.mp hp).2
        simpa using this
  refine ⟨hrm, ?_, ?_, ?_⟩
  · intro k hk
    cases st with
    | none => simp [melo_jsonrpc_unregister_method]
    | some tbl =>
      by_cases he :
          (tbl.filter (fun p => p.1 != group ++ "." ++ method)).isEmpty = true
      · have hall : ∀ p ∈ tbl, ¬((fun p => p.1 != group ++ "." ++ method) p
            = true) := by
          refine List.filter_eq_nil_iff.mp ?_
          simpa [List.isEmpty_iff] using he
        have : tbl.lookup k = none := by
          refine (lookup_eq_none_iff _ _).mpr ?_
          intro p hp
          have hpn : p.1 = group ++ "." ++ method := by
            have := hall p hp
            simpa using this
          rw [hpn]
          exact fun h => hk h.symm
        simp [melo_jsonrpc_unregister_method, he, List.lookup, this]
      · simp only [melo_jsonrpc_unregister_method, he, if_false,
          Option.getD_some]
        exact lookup_filter_ne (group ++ "." ++ method) k tbl hk
  · intro n hn
    have hentry :
        (match melo_jsonrpc_unregister_method group method st with
          | none => (none : Option InternalMethod)
          | some tbl => tbl.lookup (group ++ "." ++ method)) = none := by
      cases hst : melo_jsonrpc_unregister_method group method st with
      | none => rfl
      | some tbl' => simpa [hst] using hrm
    cases hst : melo_jsonrpc_unregister_method group method st with
    | none =>
      simp [melo_jsonrpc_parse_node, hasMember, memberGet, List.find?,
        getStrMember, getIntMember, melo_jsonrpc_build_error,
        melo_jsonrpc_build_response_node, melo_jsonrpc_build_error_node,
        not_lt.mpr hn]
    | some tbl' =>
      have hl : tbl'.lookup (group ++ "." ++ method) = none := by
        simpa [hst] using hrm
      simp [melo_jsonrpc_parse_node, hasMember, memberGet, List.find?,
        getStrMember, getIntMember, hl, melo_jsonrpc_build_error,
        melo_jsonrpc_build_response_node, melo_jsonrpc_build_error_node,
        not_lt.mpr hn]
  · intro hnone
    cases st with
    | none => rfl
    | some tbl =>
      obtain ⟨-, hne⟩ := hWF
      have hfix : tbl.filter (fun p => p.1 != group ++ "." ++ method) = tbl := by
        refine List.filter_eq_self.mpr ?_
        intro p hp
        have := (lookup_eq_none_iff _ _).mp (by simpa using hnone) p hp
        simpa using this
      simp [melo_jsonrpc_unregister_method, hfix, List.isEmpty_iff, hne]

/-- Callback for the C9 witness scenario. -/
def c9cb : MeloJSONRPCCallback := fun _ _ _ => (some (.jstr "ok"), none)

/-- Witness for C9: after registering and then unregistering `a.b`, the
identified request for `a.b` gets a Method Not Found envelope. -/
theorem c9_unregister_exact_removal_witness :
    melo_jsonrpc_parse_node
      (melo_jsonrpc_unregister_method "a" "b"
        (melo_jsonrpc_register_method "a" "b" none none c9cb none).2)
      (.jobj [("jsonrpc", .jstr "2.0"),
        ("method", .jstr ("a" ++ "." ++ "b")), ("id", .jint 1)])
    = some (.jobj [("jsonrpc", .jstr "2.0"),
        ("error", .jobj [("code", .jint MELO_JSONRPC_ERROR_METHOD_NOT_FOUND),
          ("message", .jstr "Method not found")]),
        ("id", .jint 1)]) :=
  (c9_unregister_exact_removal "a" "b"
    (melo_jsonrpc_register_method "a" "b" none none c9cb none).2
    ⟨List.nodup_singleton _, List.cons_ne_nil _ _⟩).2.2.1 1 (by decide)

/-- Witness for C10 at the concrete string value "zz" against a
one-entry integer schema. -/
theorem c10_scalar_params_vacuous_success_witness :
    melo_jsonrpc_check_params
      (some [.jobj [("name", .jstr "n"), ("type", .jstr "integer")]])
      (some (.jstr "zz")) none = (true, none)
    ∧ melo_jsonrpc_get_object
      (some [.jobj [("name", .jstr "n"), ("type", .jstr "integer")]])
      (some (.jstr "zz")) none = (some [], none)
    ∧ melo_jsonrpc_get_array
      (some [.jobj [("name", .jstr "n"), ("type", .jstr "integer")]])
      (some (.jstr "zz")) none = (some [], none) :=
  c10_scalar_params_vacuous_success _ (.jstr "zz") rfl rfl

end Melo
